import Mathlib

/-!
Verification of the GENAIHACKS retrieval-augmented QA backend.

The development shallowly embeds the pure core of the repository:
* `src/backend/data_preprocessing.py` — `clean`, `chunking`, `preprocess`;
* `src/backend/api.py` — the `/chat` endpooint's result/error mapping.

Strings are modelled as lists of code points (`List Nat`), over the ASCII
fragment that the repository's data and the Python regexes act on:
`\s` is the standard ASCII whitespace set, `\w` is letters, digits and
underscore, `str.lower` maps `A`–`Z` to `a`–`z` and leaves everything else.
-/

namespace GenAiHacks

/-- ASCII code points matched by the Python regex class `\s`
(space, tab, newline, carriage return, form feed, vertical tab). -/
def isSpaceCp (n : Nat) : Bool :=
  n = 32 || n = 9 || n = 10 || n = 13 || n = 12 || n = 11

/-- ASCII decimal digits `0`–`9`. -/
def isDigitCp (n : Nat) : Bool := 48 ≤ n && n ≤ 57

/-- ASCII uppercase letters `A`–`Z`. -/
def isUpperCp (n : Nat) : Bool := 65 ≤ n && n ≤ 90

/-- ASCII lowercase letters `a`–`z`. -/
def isLowerCp (n : Nat) : Bool := 97 ≤ n && n ≤ 122

/-- ASCII letters. -/
def isAlphaCp (n : Nat) : Bool := isUpperCp n || isLowerCp n

/-- Code points matched by the Python regex class `\w` (ASCII fragment):
letters, digits, underscore. -/
def isWordCp (n : Nat) : Bool := isAlphaCp n || isDigitCp n || n = 95

/-- The four punctuation characters kept by `clean`: `.` `,` `?` `!`. -/
def isKeptPunct (n : Nat) : Bool := n = 46 || n = 44 || n = 63 || n = 33

/-- The character class kept by `clean`'s second regex
`[^\w\s\.\,\?\!]`: word characters, whitespace, and `. , ? !`. -/
def isAllowedCp (n : Nat) : Bool := isWordCp n || isSpaceCp n || isKeptPunct n

/-- `str.lower` on a single ASCII code point. -/
def lowerCp (n : Nat) : Nat := if isUpperCp n then n + 32 else n

/-- Code points of a string literal (used only to write concrete inputs). -/
def str (s : String) : List Nat := s.toList.map Char.toNat

/-- `re.sub(r'\s+', ' ', text)`: collapse every run of whitespace to a
single space.  The boolean records whether the previous character was part
of a whitespace run already emitted as one space. -/
def collapseAux : Bool → List Nat → List Nat
  | _, [] => []
  | prevSpace, c :: rest =>
    if isSpaceCp c then
      if prevSpace then collapseAux true rest
      else 32 :: collapseAux true rest
    else c :: collapseAux false rest

/-- Whitespace collapse over a whole string. -/
def collapseWs (l : List Nat) : List Nat := collapseAux false l

/-- `re.sub(r'[^\w\s\.\,\?\!]', ' ', text)` on one character: characters
outside the allowed class are replaced by a space, not deleted. -/
def substCp (n : Nat) : Nat := if isAllowedCp n then n else 32

/-- `str.strip()`: remove leading and trailing whitespace. -/
def stripCp (l : List Nat) : List Nat :=
  ((l.dropWhile isSpaceCp).reverse.dropWhile isSpaceCp).reverse

/-- `clean` on a non-null string: collapse whitespace, replace disallowed
characters by spaces, lowercase, strip (in the source's order). -/
def cleanStr (l : List Nat) : List Nat :=
  stripCp (((collapseWs l).map substCp).map lowerCp)

/-- `clean(text)` from `data_preprocessing.py`: `pd.isna(text)` (modelled
as `none`) yields the empty string, otherwise the normalisation pipeline. -/
def clean : Option (List Nat) → List Nat
  | none => []
  | some t => cleanStr t

/-- `text.split()`: split on whitespace runs, discarding empty pieces.
`acc` holds the reversed characters of the word currently being read. -/
def splitWordsAux : List Nat → List Nat → List (List Nat)
  | [], acc => if acc.isEmpty then [] else [acc.reverse]
  | c :: rest, acc =>
    if isSpaceCp c then
      if acc.isEmpty then splitWordsAux rest []
      else acc.reverse :: splitWordsAux rest []
    else splitWordsAux rest (c :: acc)

/-- `text.split()` over a whole string. -/
def splitWords (l : List Nat) : List (List Nat) := splitWordsAux l []

/-- Python's `range(0, stop, step)` for `step > 0`: the starts
`step*k` for `k < ⌈stop/step⌉`. -/
def pyRange (stop step : Nat) : List Nat :=
  (List.range ((stop + step - 1) / step)).map (fun k => step * k)

/-- `chunking(text)` with the source's fixed `chunk_size = 500` and
`overlap = 50`: for each start `i` produced by
`range(0, len(words), chunk_size - overlap)` append
`' '.join(words[i:i + chunk_size])`. -/
def chunking (text : List Nat) : List (List Nat) :=
  let words := splitWords text
  (pyRange words.length 450).map
    (fun i => List.intercalate [32] ((words.drop i).take 500))

/-- One row of the dataset; a missing cell (pandas `NaN`) is `none`. -/
structure Row where
  Context : Option (List Nat)
  Response : Option (List Nat)

/-- One emitted document dictionary: `context`, `response`, `data` (the
chunk), and the metadata fields `original_context` and `response`
(the running count `len(documents)`). -/
structure Document where
  context : List Nat
  response : List Nat
  data : List Nat
  originalContext : Option (List Nat)
  docCount : Nat

/-- `f"Question: {context}\nAnswer: {response}"` (applied after cleaning,
so the two prefixes keep their capital letters). -/
def formatQA (context response : List Nat) : List Nat :=
  str "Question: " ++ context ++ [10] ++ str "Answer: " ++ response

/-- The inner `for chunk in chunks` loop: one document per chunk, whose
metadata count is `len(documents)` at append time, i.e. `n`, `n+1`, …. -/
def docsOfChunks (context response : List Nat) (origCtx : Option (List Nat)) :
    List (List Nat) → Nat → List Document
  | [], _ => []
  | ch :: chs, n =>
    ⟨context, response, ch, origCtx, n⟩ :: docsOfChunks context response origCtx chs (n + 1)

/-- The documents emitted for one row when `n` documents precede it. -/
def rowDocs (row : Row) (n : Nat) : List Document :=
  let context := clean row.Context
  let response := clean row.Response
  let data := formatQA context response
  docsOfChunks context response row.Context (chunking data) n

/-- The `for _, row in df.iterrows()` loop, with `n` the number of
documents emitted so far. -/
def preprocessAux : List Row → Nat → List Document
  | [], _ => []
  | row :: rows, n =>
    let ds := rowDocs row n
    ds ++ preprocessAux rows (n + ds.length)

/-- `preprocess()` as a function of the parsed dataset rows. -/
def preprocess (rows : List Row) : List Document := preprocessAux rows 0

/-- A retrieved source document as the endpoint sees it: `page_content`
and `metadata` are `none` when the corresponding attribute is absent
(the `hasattr` checks in `api.py`). -/
structure RawDoc where
  pageContent : Option (List Nat)
  metadata : Option (List Nat)

/-- Outcome of `retrieval_chain.invoke({"query": q})`: either a result
dictionary with optional keys `result` and `source_documents`, or an
exception carrying its message text. -/
inductive ChainOutcome where
  | ok (result : Option (List Nat)) (sourceDocs : Option (List RawDoc))
  | fail (errText : List Nat)

/-- One `{content, metadata}` entry of the `sources` list. -/
structure SourceEntry where
  content : Option (List Nat)
  metadata : Option (List Nat)

/-- Body of an HTTP response from the service. -/
inductive RespBody where
  /-- The 200 payload `{"response": ..., "sources": [...]}`. -/
  | success (response : List Nat) (sources : List SourceEntry)
  /-- A `{"detail": ...}` error payload raised via `HTTPException`. -/
  | detail (msg : List Nat)
  /-- The framework's 422 validation-error payload for a malformed body. -/
  | validationError

/-- An HTTP response: status code and body. -/
structure HttpResponse where
  status : Nat
  body : RespBody

/-- A parsed `/chat` request body: either it carries a string `query`
field, or pydantic validation of `Question` fails (field missing or not a
string). -/
inductive ReqBody where
  | withQuery (q : List Nat)
  | malformed

/-- The body of `chat_endpoint` once a validated `Question` is in hand:
invoke the chain; on success build `{"response": result.get(...),
"sources": [...]}`; on any exception answer
`HTTPException(500, "Error processing your question")`. -/
def chat_endpoint (chain : List Nat → ChainOutcome) (q : List Nat) : HttpResponse :=
  match chain q with
  | .fail _ => ⟨500, .detail (str "Error processing your question")⟩
  | .ok result sourceDocs =>
    let resp := result.getD (str "No response generated")
    let sources :=
      match sourceDocs with
      | none => []
      | some docs => docs.map (fun d => SourceEntry.mk d.pageContent d.metadata)
    ⟨200, .success resp sources⟩

/-- `POST /chat` at the service boundary.  A malformed body is rejected by
pydantic with a 422 before the handler runs; otherwise the handler runs.
The second component counts how many times `retrieval_chain.invoke` was
called while serving the request. -/
def handleChat (chain : List Nat → ChainOutcome) : ReqBody → HttpResponse × Nat
  | .malformed => (⟨422, .validationError⟩, 0)
  | .withQuery q => (chat_endpoint chain q, 1)

/-! ### Concrete inputs and claim statements used by counterexamples -/

/-- `true` iff the list contains two consecutive whitespace characters. -/
def hasDoubleWs : List Nat → Bool
  | a :: b :: rest => (isSpaceCp a && isSpaceCp b) || hasDoubleWs (b :: rest)
  | _ => false

/-- A text of 451 one-letter words separated by single spaces. -/
def w451 : List Nat := List.intercalate [32] (List.replicate 451 [97])

/-- The chunk-count formula claimed by the spec: `⌈(wc − 50) / 450⌉` when
`wc > 500`, else `1` (stated with natural-number ceiling division). -/
def chunkCountClaim (text : List Nat) : Prop :=
  (chunking text).length =
    if 500 < (splitWords text).length
    then ((splitWords text).length - 50 + 449) / 450
    else 1

/-- The claim that the chunker always returns a non-empty result, and a
single all-words chunk whenever the input has fewer than 500 words. -/
def chunkerTotalClaim (text : List Nat) : Prop :=
  chunking text ≠ [] ∧
  ((splitWords text).length < 500 →
    chunking text = [List.intercalate [32] (splitWords text)])

/-- The claimed output character class of `clean`: alphanumeric,
whitespace, or one of `. , ? !` (no underscore). -/
def charClassClaim (l : List Nat) : Prop :=
  ∀ c ∈ cleanStr l, (isAlphaCp c || isDigitCp c || isSpaceCp c || isKeptPunct c) = true

/-- The claimed normal form of `clean`'s output: lowercase, stripped, and
free of consecutive whitespace. -/
def normalizedClaim (l : List Nat) : Prop :=
  (∀ c ∈ cleanStr l, isUpperCp c = false) ∧
  (cleanStr l).head?.all (fun x => !isSpaceCp x) = true ∧
  (cleanStr l).getLast?.all (fun x => !isSpaceCp x) = true ∧
  hasDoubleWs (cleanStr l) = false

/-- The `Context` value of the spec's end-to-end scenario row. -/
def anxiousContext : List Nat := str "I feel anxious"

/-- The `Response` value of the scenario row (`39` is the apostrophe). -/
def anxiousResponse : List Nat :=
  str "That" ++ [39] ++ str "s understandable, let" ++ [39] ++ str "s talk about it"

/-- The combined text the preprocessor builds for the scenario row. -/
def anxiousCombined : List Nat :=
  formatQA (clean (some anxiousContext)) (clean (some anxiousResponse))

/-- The combined text the spec claims for the scenario row (lowercase
prefixes, apostrophes retained). -/
def claimedCombined : List Nat :=
  str "question: i feel anxious\nanswer: that" ++ [39] ++
    str "s understandable, let" ++ [39] ++ str "s talk about it"

/-- A chain whose `invoke` always succeeds. -/
def chainAlwaysOk : List Nat → ChainOutcome := fun _ => .ok (some (str "ok")) none

/-- A chain whose `invoke` always raises. -/
def chainAlwaysFail : List Nat → ChainOutcome := fun _ => .fail (str "boom")

/-- The claim that an empty query is answered with a 4xx and the chain is
never invoked. -/
def emptyQueryClaim (chain : List Nat → ChainOutcome) : Prop :=
  400 ≤ (handleChat chain (.withQuery (str ""))).1.status ∧
  (handleChat chain (.withQuery (str ""))).1.status < 500 ∧
  (handleChat chain (.withQuery (str ""))).2 = 0

/-! ### Helper lemmas -/

/-- The chunk count is the iteration count of `range(0, len(words), 450)`. -/
theorem chunking_length (text : List Nat) :
    (chunking text).length = ((splitWords text).length + 449) / 450 := by
  simp [chunking, pyRange]

/-- `strip` only removes characters. -/
theorem mem_stripCp {c : Nat} {l : List Nat} (h : c ∈ stripCp l) : c ∈ l := by
  unfold stripCp at h
  rw [List.mem_reverse] at h
  have h1 : c ∈ (l.dropWhile isSpaceCp).reverse :=
    List.Sublist.mem h (List.dropWhile_sublist _)
  rw [List.mem_reverse] at h1
  exact List.Sublist.mem h1 (List.dropWhile_sublist _)

/-- Every character of `clean`'s output is the lowercasing of the
substitution of some character. -/
theorem mem_cleanStr {c : Nat} {l : List Nat} (h : c ∈ cleanStr l) :
    ∃ a, c = lowerCp (substCp a) := by
  unfold cleanStr at h
  have h1 := mem_stripCp h
  rw [List.mem_map] at h1
  obtain ⟨b, hb, rfl⟩ := h1
  rw [List.mem_map] at hb
  obtain ⟨a, _, rfl⟩ := hb
  exact ⟨a, rfl⟩

/-- Lowercasing keeps a character inside the allowed class. -/
theorem isAllowedCp_lowerCp {b : Nat} (hb : isAllowedCp b = true) :
    isAllowedCp (lowerCp b) = true := by
  unfold lowerCp
  split_ifs with h
  · simp only [isUpperCp, Bool.and_eq_true, decide_eq_true_eq] at h
    simp only [isAllowedCp, isWordCp, isAlphaCp, isUpperCp, isLowerCp, isDigitCp,
      isSpaceCp, isKeptPunct, Bool.or_eq_true, Bool.and_eq_true, decide_eq_true_eq]
    omega
  · exact hb

/-- After substitution and lowercasing, every character is allowed. -/
theorem allowed_after_pipeline (a : Nat) : isAllowedCp (lowerCp (substCp a)) = true := by
  by_cases ha : isAllowedCp a = true
  · rw [substCp, if_pos ha]
    exact isAllowedCp_lowerCp ha
  · rw [substCp, if_neg ha]
    decide

/-- Lowercasing never yields an uppercase letter. -/
theorem isUpperCp_lowerCp (b : Nat) : isUpperCp (lowerCp b) = false := by
  unfold lowerCp
  split_ifs with h
  · simp only [isUpperCp, Bool.and_eq_true, decide_eq_true_eq] at h
    simp only [isUpperCp, Bool.and_eq_false_iff, decide_eq_false_iff_not]
    omega
  · exact Bool.not_eq_true _ ▸ eq_false_of_ne_true h

/-- The head of `dropWhile p l` does not satisfy `p`. -/
theorem head?_dropWhile_spec (p : Nat → Bool) (l : List Nat) {x : Nat}
    (h : (l.dropWhile p).head? = some x) : p x = false := by
  induction l with
  | nil => simp [List.dropWhile] at h
  | cons a l ih =>
    rw [List.dropWhile_cons] at h
    split_ifs at h with hpa
    · exact ih h
    · simp only [List.head?_cons, Option.some.injEq] at h
      subst h
      exact eq_false_of_ne_true hpa

/-- When `dropWhile` leaves something, it leaves the last element alone. -/
theorem getLast?_dropWhile_spec (p : Nat → Bool) (l : List Nat)
    (hne : l.dropWhile p ≠ []) : (l.dropWhile p).getLast? = l.getLast? := by
  induction l with
  | nil => simp [List.dropWhile] at hne
  | cons a l ih =>
    rw [List.dropWhile_cons] at hne ⊢
    split_ifs at hne ⊢ with hpa
    · have hl : l ≠ [] := by
        intro he
        subst he
        simp [List.dropWhile] at hne
      rw [ih hne]
      cases l with
      | nil => exact absurd rfl hl
      | cons b t => rw [List.getLast?_cons_cons]
    · rfl

/-- A non-empty `strip` result starts with a non-whitespace character. -/
theorem stripCp_head_not_space {l : List Nat} {x : Nat}
    (h : (stripCp l).head? = some x) : isSpaceCp x = false := by
  unfold stripCp at h
  rw [List.head?_reverse] at h
  have hne : List.dropWhile isSpaceCp (l.dropWhile isSpaceCp).reverse ≠ [] := by
    intro he
    rw [he] at h
    simp at h
  rw [getLast?_dropWhile_spec _ _ hne, List.getLast?_reverse] at h
  exact head?_dropWhile_spec _ _ h

/-- A non-empty `strip` result ends with a non-whitespace character. -/
theorem stripCp_getLast_not_space {l : List Nat} {x : Nat}
    (h : (stripCp l).getLast? = some x) : isSpaceCp x = false := by
  unfold stripCp at h
  rw [List.getLast?_reverse] at h
  exact head?_dropWhile_spec _ _ h

/-- Once a word is being read, `split` produces at least one word. -/
theorem splitWordsAux_ne_nil (l : List Nat) (acc : List Nat) (h : acc ≠ []) :
    splitWordsAux l acc ≠ [] := by
  induction l generalizing acc with
  | nil =>
    have hi : acc.isEmpty = false := by simpa using h
    simp [splitWordsAux, hi]
  | cons c rest ih =>
    have hi : acc.isEmpty = false := by simpa using h
    cases hc : isSpaceCp c with
    | true => simp [splitWordsAux, hc, hi]
    | false =>
      simp only [splitWordsAux, hc, Bool.false_eq_true, if_false]
      exact ih (c :: acc) (by simp)

/-- A string starting with a non-whitespace character has a word. -/
theorem splitWords_cons_ne_nil (c : Nat) (rest : List Nat)
    (hc : isSpaceCp c = false) : splitWords (c :: rest) ≠ [] := by
  unfold splitWords
  simp only [splitWordsAux, hc, Bool.false_eq_true, if_false]
  exact splitWordsAux_ne_nil rest [c] (by simp)

/-- The formatted question/answer text always contains a word. -/
theorem splitWords_formatQA_ne_nil (c r : List Nat) :
    splitWords (formatQA c r) ≠ [] := by
  have hf : formatQA c r = 81 :: (str "uestion: " ++ c ++ [10] ++ str "Answer: " ++ r) := rfl
  rw [hf]
  exact splitWords_cons_ne_nil 81 _ (by decide)

/-- Chunking the formatted text yields at least one chunk. -/
theorem chunking_formatQA_ne_nil (c r : List Nat) : chunking (formatQA c r) ≠ [] := by
  have h := splitWords_formatQA_ne_nil c r
  have h1 : 0 < (splitWords (formatQA c r)).length := List.length_pos.mpr h
  intro he
  have h2 := chunking_length (formatQA c r)
  rw [he] at h2
  simp only [List.length_nil] at h2
  omega

/-- `docsOfChunks` emits exactly one document per chunk. -/
theorem docsOfChunks_length (c r : List Nat) (o : Option (List Nat))
    (chs : List (List Nat)) (n : Nat) :
    (docsOfChunks c r o chs n).length = chs.length := by
  induction chs generalizing n with
  | nil => rfl
  | cons ch chs ih => simp [docsOfChunks, ih]

/-- The running counts attached by `docsOfChunks` are consecutive. -/
theorem docsOfChunks_map_docCount (c r : List Nat) (o : Option (List Nat))
    (chs : List (List Nat)) (n : Nat) :
    (docsOfChunks c r o chs n).map Document.docCount = List.range' n chs.length := by
  induction chs generalizing n with
  | nil => rfl
  | cons ch chs ih => simp [docsOfChunks, List.range'_succ, ih]

/-- Every document of a row carries that row's raw context. -/
theorem docsOfChunks_map_orig (c r : List Nat) (o : Option (List Nat))
    (chs : List (List Nat)) (n : Nat) :
    (docsOfChunks c r o chs n).map Document.originalContext =
      List.replicate chs.length o := by
  induction chs generalizing n with
  | nil => rfl
  | cons ch chs ih => simp [docsOfChunks, List.replicate_succ, ih]

/-- Every row emits at least one document. -/
theorem rowDocs_ne_nil (row : Row) (n : Nat) : rowDocs row n ≠ [] := by
  show docsOfChunks (clean row.Context) (clean row.Response) row.Context
      (chunking (formatQA (clean row.Context) (clean row.Response))) n ≠ []
  cases hch : chunking (formatQA (clean row.Context) (clean row.Response)) with
  | nil => exact absurd hch (chunking_formatQA_ne_nil _ _)
  | cons ch chs => simp [docsOfChunks]

/-- A row's document count does not depend on the running count. -/
theorem rowDocs_length (row : Row) (n : Nat) :
    (rowDocs row n).length = (rowDocs row 0).length := by
  unfold rowDocs
  rw [docsOfChunks_length, docsOfChunks_length]

/-- The counts attached by one row are consecutive from `n`. -/
theorem rowDocs_map_docCount (row : Row) (n : Nat) :
    (rowDocs row n).map Document.docCount = List.range' n (rowDocs row n).length := by
  unfold rowDocs
  rw [docsOfChunks_map_docCount, docsOfChunks_length]

/-- The raw contexts attached by one row are all that row's `Context`. -/
theorem rowDocs_map_orig (row : Row) (n : Nat) :
    (rowDocs row n).map Document.originalContext =
      List.replicate (rowDocs row n).length row.Context := by
  unfold rowDocs
  rw [docsOfChunks_map_orig, docsOfChunks_length]

/-- Concatenating adjacent count ranges. -/
theorem range'_append_simple (s a b : Nat) :
    List.range' s a ++ List.range' (s + a) b = List.range' s (a + b) := by
  simp [Nat.add_comm]

/-- The counts over a whole run of the outer loop are consecutive. -/
theorem preprocessAux_map_docCount (rows : List Row) (n : Nat) :
    (preprocessAux rows n).map Document.docCount =
      List.range' n (preprocessAux rows n).length := by
  induction rows generalizing n with
  | nil => rfl
  | cons row rows ih =>
    simp only [preprocessAux, List.map_append, List.length_append]
    rw [rowDocs_map_docCount, ih, range'_append_simple]

/-- The raw contexts over a whole run are grouped by row. -/
theorem preprocessAux_map_orig (rows : List Row) (n : Nat) :
    (preprocessAux rows n).map Document.originalContext =
      (rows.map fun r => List.replicate (rowDocs r 0).length r.Context).flatten := by
  induction rows generalizing n with
  | nil => rfl
  | cons row rows ih =>
    simp only [preprocessAux, List.map_append, List.map_cons, List.flatten_cons]
    rw [rowDocs_map_orig, rowDocs_length, ih]

/-- Each row contributes at least one document to the output. -/
theorem preprocessAux_length_ge (rows : List Row) (n : Nat) :
    rows.length ≤ (preprocessAux rows n).length := by
  induction rows generalizing n with
  | nil => simp [preprocessAux]
  | cons row rows ih =>
    simp only [preprocessAux, List.length_append, List.length_cons]
    have h2 : 0 < (rowDocs row n).length := List.length_pos.mpr (rowDocs_ne_nil row n)
    have h3 := ih (n + (rowDocs row n).length)
    omega

/-! ### Claim theorems -/

/-- C1, counterexample: with a chain that succeeds, `POST /chat` with
`{"query": ""}` is answered 200 after invoking the chain once — not a 4xx
with the chain never called, as the claim states. -/
theorem emptyQueryClaim_cex : ¬ emptyQueryClaim chainAlwaysOk := by
  unfold emptyQueryClaim
  decide

/-- C1, amended: a malformed body (missing or non-string `query`) is
rejected by validation with a 422 and the chain is never invoked, but the
empty-string query passes validation and the chain is invoked exactly
once. -/
theorem chat_empty_query_invokes_chain (chain : List Nat → ChainOutcome) :
    handleChat chain .malformed = (⟨422, .validationError⟩, 0) ∧
    (handleChat chain (.withQuery (str ""))).2 = 1 :=
  ⟨rfl, rfl⟩

/-- C2: whenever `invoke` raises, the endpoint answers exactly
`500` with `{"detail": "Error processing your question"}`, for every
exception text `e` — the response is a constant, so the underlying
exception text is never incorporated into it. -/
theorem chat_error_masked (chain : List Nat → ChainOutcome) (q e : List Nat)
    (h : chain q = .fail e) :
    handleChat chain (.withQuery q) =
      (⟨500, .detail (str "Error processing your question")⟩, 1) := by
  simp [handleChat, chat_endpoint, h]

/-- C2, witness: a concrete always-raising chain is answered with the
generic 500 response. -/
theorem chat_error_masked_witness :
    handleChat chainAlwaysFail (.withQuery (str "hi")) =
      (⟨500, .detail (str "Error processing your question")⟩, 1) :=
  chat_error_masked chainAlwaysFail (str "hi") (str "boom") rfl

/-- C3, counterexample: the combined text of the scenario row is not the
string the claim asserts — the `Question:`/`Answer:` prefixes keep their
capital letters (the formatting happens after cleaning), and the
apostrophes are replaced by spaces (`'` is not in the kept class). -/
theorem anxiousCombined_cex : anxiousCombined ≠ claimedCombined := by decide

/-- C3, amended: the combined cleaned text of the row
`Context="I feel anxious"`,
`Response="That's understandable, let's talk about it"` is
`"Question: i feel anxious\nAnswer: that s understandable, let s talk
about it"`, and the row yields exactly one document. -/
theorem anxious_row_combined :
    anxiousCombined =
      str "Question: i feel anxious\nAnswer: that s understandable, let s talk about it" ∧
    (preprocess [⟨some anxiousContext, some anxiousResponse⟩]).length = 1 := by
  constructor
  · decide
  · decide

set_option maxRecDepth 10000 in
/-- C4, counterexample: a 451-word input has `451 ≤ 500` words, so the
claim predicts one chunk, but `range(0, 451, 450)` has two starts and the
code emits two chunks. -/
theorem chunkCountClaim_cex : ¬ chunkCountClaim w451 := by
  unfold chunkCountClaim
  decide

/-- C4, amended: for every input, the number of chunks equals
`⌈wordCount / 450⌉` (zero for a wordless input) — the iteration count of
`range(0, wordCount, 450)` — not the claimed `⌈(wordCount − 50) / 450⌉`
with a special case at 500. -/
theorem chunking_count (text : List Nat) :
    (chunking text).length = ((splitWords text).length + 449) / 450 :=
  chunking_length text

/-- C5, counterexample: on the empty string the chunker returns the empty
list, not a non-empty sequence of chunks. -/
theorem chunkerTotalClaim_cex : ¬ chunkerTotalClaim [] := by
  unfold chunkerTotalClaim
  decide

/-- C5, amended: the chunker returns no chunks exactly for wordless
input, and for an input of 1 to 450 words (not the claimed "fewer than
500") it returns exactly one chunk, all the input's words joined by
single spaces. -/
theorem chunking_single_chunk (text : List Nat) :
    (chunking text = [] ↔ splitWords text = []) ∧
    (1 ≤ (splitWords text).length → (splitWords text).length ≤ 450 →
      chunking text = [List.intercalate [32] (splitWords text)]) := by
  have hlen := chunking_length text
  constructor
  · rw [← List.length_eq_zero, ← List.length_eq_zero (l := splitWords text), hlen]
    omega
  · intro h1 h2
    show (pyRange (splitWords text).length 450).map
        (fun i => List.intercalate [32] (((splitWords text).drop i).take 500)) = _
    unfold pyRange
    have h3 : ((splitWords text).length + 450 - 1) / 450 = 1 := by omega
    rw [h3]
    simp [List.range_succ, List.take_of_length_le (by omega : (splitWords text).length ≤ 500)]

/-- C5, witness: a two-word input is returned as one chunk. -/
theorem chunking_single_chunk_witness :
    (1 ≤ (splitWords (str "hello world")).length ∧
      (splitWords (str "hello world")).length ≤ 450) ∧
    chunking (str "hello world") =
      [List.intercalate [32] (splitWords (str "hello world"))] :=
  ⟨⟨by decide, by decide⟩,
    (chunking_single_chunk (str "hello world")).2 (by decide) (by decide)⟩

/-- C6, counterexample: `clean("_") = "_"`, and the underscore is neither
alphanumeric, nor whitespace, nor one of `. , ? !` — the regex class `\w`
also keeps underscores. -/
theorem charClassClaim_cex : ¬ charClassClaim (str "_") := by
  unfold charClassClaim
  decide

/-- C6, amended: every character of the cleaner's output is a word
character (alphanumeric or underscore), whitespace, or one of
`. , ? !`. -/
theorem cleanStr_chars_allowed (l : List Nat) :
    ∀ c ∈ cleanStr l, isAllowedCp c = true := by
  intro c hc
  obtain ⟨a, rfl⟩ := mem_cleanStr hc
  exact allowed_after_pipeline a

/-- C6, witness: the character `a` of `clean("abc")` is in the allowed
class. -/
theorem cleanStr_chars_allowed_witness :
    97 ∈ cleanStr (str "abc") ∧ isAllowedCp 97 = true :=
  ⟨by decide, cleanStr_chars_allowed (str "abc") 97 (by decide)⟩

/-- C7, counterexample: `clean("a@@b") = "a  b"` — the two disallowed
characters are each replaced by a space after whitespace collapsing has
already run, so the output contains a run of two spaces. -/
theorem normalizedClaim_cex : ¬ normalizedClaim (str "a@@b") := by
  unfold normalizedClaim
  decide

/-- C7, amended: the cleaner's output contains no uppercase letter and
has no leading or trailing whitespace; the no-consecutive-whitespace part
of the claim is dropped (see the counterexample). -/
theorem cleanStr_normalized (l : List Nat) :
    (∀ c ∈ cleanStr l, isUpperCp c = false) ∧
    (cleanStr l).head?.all (fun x => !isSpaceCp x) = true ∧
    (cleanStr l).getLast?.all (fun x => !isSpaceCp x) = true := by
  refine ⟨fun c hc => ?_, ?_, ?_⟩
  · obtain ⟨a, rfl⟩ := mem_cleanStr hc
    exact isUpperCp_lowerCp _
  · cases hh : (cleanStr l).head? with
    | none => rfl
    | some x =>
      have hx : isSpaceCp x = false :=
        stripCp_head_not_space (l := ((collapseWs l).map substCp).map lowerCp) hh
      simp [Option.all, hx]
  · cases hh : (cleanStr l).getLast? with
    | none => rfl
    | some x =>
      have hx : isSpaceCp x = false :=
        stripCp_getLast_not_space (l := ((collapseWs l).map substCp).map lowerCp) hh
      simp [Option.all, hx]

/-- C7, witness: the character `a` of `clean("Abc")` is not uppercase. -/
theorem cleanStr_normalized_witness :
    97 ∈ cleanStr (str "Abc") ∧ isUpperCp 97 = false :=
  ⟨by decide, (cleanStr_normalized (str "Abc")).1 97 (by decide)⟩

/-- C8: over any dataset, the i-th emitted document's metadata count is
`i` (the number of documents emitted before it), and the emitted
documents' raw-context metadata is, row by row, that row's original
pre-clean `Context`. -/
theorem preprocess_metadata (rows : List Row) :
    (preprocess rows).map Document.docCount = List.range (preprocess rows).length ∧
    (preprocess rows).map Document.originalContext =
      (rows.map fun r => List.replicate (rowDocs r 0).length r.Context).flatten := by
  constructor
  · rw [List.range_eq_range']
    exact preprocessAux_map_docCount rows 0
  · exact preprocessAux_map_orig rows 0

/-- C9: every row emits at least one document — the formatted
`Question/Answer` text always contains a word, so its chunking is never
empty — and hence the output has at least one document per row. -/
theorem preprocess_row_nonempty :
    (∀ (row : Row) (n : Nat), rowDocs row n ≠ []) ∧
    (∀ rows : List Row, rows.length ≤ (preprocess rows).length) :=
  ⟨rowDocs_ne_nil, fun rows => preprocessAux_length_ge rows 0⟩

/-- C10: when `invoke` returns a dictionary, the endpoint answers 200
with a body holding both keys: `response` is the dictionary's `result`
defaulted to `"No response generated"` when the key is absent, and
`sources` is built from `source_documents` defaulted to the empty list
when that key is absent. -/
theorem chat_success_shape (chain : List Nat → ChainOutcome) (q : List Nat)
    (res : Option (List Nat)) (docs : Option (List RawDoc))
    (h : chain q = .ok res docs) :
    (handleChat chain (.withQuery q)).1 =
      ⟨200, .success (res.getD (str "No response generated"))
        ((docs.getD []).map fun d => SourceEntry.mk d.pageContent d.metadata)⟩ := by
  cases docs <;> simp [handleChat, chat_endpoint, h]

/-- C10, witness: a chain returning a dictionary with a `result` and no
`source_documents` is answered 200 with that result and empty sources. -/
theorem chat_success_shape_witness :
    (handleChat chainAlwaysOk (.withQuery (str "hi"))).1 =
      ⟨200, .success (str "ok") []⟩ :=
  chat_success_shape chainAlwaysOk (str "hi") (some (str "ok")) none rfl

end GenAiHacks
